import Mathlib

/-!
# Verification of the gamux real-time orchestration core

Shallow embedding of the gamux repository's core components:

* `gamux/voice/vad.py` — the energy-based voice-activity detector;
* `gamux/app.py` — the PTT orchestrator (`_on_button`, `_audio_loop`);
* `gamux/controller/reader.py` — axis normalization, hat-axis (d-pad)
  edge synthesis, `start()` device resolution;
* `gamux/voice/source.py` — the bounded audio queue, sentinel-based
  termination, and the drop-newest-on-full producer policy;
* `gamux/controller/buttons.py` — the button-name enumeration.

Python floats are modelled as exact rationals (`ℚ`), numpy arrays of
samples as `List ℚ`, and Python `int` division/truncation explicitly.
Fallible operations return `Except`.
-/

namespace Gamux

/-! ## Audio chunks

An `AudioChunk` is a block of mono float samples (numpy `float32`
array); we model it as a list of rationals.  The empty chunk is the
queue sentinel (`np.zeros(0)` in `voice/source.py`). -/

abbrev Chunk := List ℚ

/-- Sum of squared samples of a chunk (`np.mean(chunk**2) * len(chunk)`). -/
def rmsSqSum (c : Chunk) : ℚ :=
  (c.map (fun x => x * x)).sum

/-! ## VAD (`gamux/voice/vad.py`) -/

/-- `VADState` enum from `vad.py` (the `TRAILING` member exists in the
source but is never assigned). -/
inductive VADState where
  | SILENCE
  | SPEECH
  | TRAILING
deriving DecidableEq, Repr

/-- `VADConfig` dataclass.  `threshold` is a float; the durations are
ints; defaults as in the source. -/
structure VADConfig where
  threshold : ℚ := 1/2
  silence_duration_ms : ℤ := 500
  min_speech_ms : ℤ := 100
  sample_rate : ℤ := 16000
deriving DecidableEq, Repr

/-- `VADResult` dataclass: flags and the accumulated buffer. -/
structure VADResult where
  speech_started : Bool := false
  speech_ended : Bool := false
  audio_buffer : List Chunk := []
deriving DecidableEq, Repr

/-- `is_speech = rms(chunk) >= threshold` where
`rms = sqrt(mean(chunk**2))`.  To stay inside `ℚ` we use the equivalent
square-compare form: for a nonempty chunk and `threshold > 0`,
`rms ≥ t ↔ t² · len ≤ Σ x²`; for `threshold ≤ 0` the comparison is
always true (rms is nonnegative); for the empty chunk `np.mean` is NaN
and every comparison with NaN is false. -/
def isSpeech (cfg : VADConfig) (c : Chunk) : Bool :=
  decide (0 < c.length) &&
    (decide (cfg.threshold ≤ 0) ||
     decide (cfg.threshold ^ 2 * (c.length : ℚ) ≤ rmsSqSum c))

/-- Python `int()` applied to a (here: exact) real number — truncation
toward zero. -/
def pyInt (q : ℚ) : ℤ :=
  if 0 ≤ q then ⌊q⌋ else ⌈q⌉

/-- Detector state: config plus the four mutable fields of
`VoiceActivityDetector`, and the `_silence_threshold_chunks` value
computed once in `__init__`. -/
structure VAD where
  cfg : VADConfig
  state : VADState
  buffer : List Chunk
  silence_samples : ℕ
  speech_samples : ℕ
  silence_threshold_chunks : ℕ
deriving DecidableEq, Repr

/-- `VoiceActivityDetector.__init__`:
`silence_chunks = int(silence_duration_ms / 1000 * sample_rate / 480)`;
`_silence_threshold_chunks = max(1, silence_chunks)`.  The `max 1` bound
lets us carry the value as a natural number. -/
def VAD.init (cfg : VADConfig) : VAD :=
  let silence_chunks :=
    pyInt ((cfg.silence_duration_ms : ℚ) / 1000 * (cfg.sample_rate : ℚ) / 480)
  { cfg := cfg
    state := .SILENCE
    buffer := []
    silence_samples := 0
    speech_samples := 0
    silence_threshold_chunks := (max 1 silence_chunks).toNat }

/-- `VoiceActivityDetector.reset`. -/
def VAD.reset (v : VAD) : VAD :=
  { v with state := .SILENCE, buffer := [], silence_samples := 0, speech_samples := 0 }

/-- `min_samples = int(min_speech_ms / 1000 * sample_rate)` (computed
inside `process`). -/
def minSamples (cfg : VADConfig) : ℤ :=
  pyInt ((cfg.min_speech_ms : ℚ) / 1000 * (cfg.sample_rate : ℚ))

/-- `VoiceActivityDetector.process`, returning the new detector state
and the `VADResult`.  In the source, a detector in the (never-reached)
`TRAILING` state falls through both branches: no state change, default
result. -/
def VAD.process (v : VAD) (chunk : Chunk) : VAD × VADResult :=
  let sp := isSpeech v.cfg chunk
  match v.state with
  | .SILENCE =>
      if sp then
        ({ v with state := .SPEECH
                  buffer := [chunk]
                  speech_samples := chunk.length
                  silence_samples := 0 },
         { speech_started := true })
      else (v, {})
  | .SPEECH =>
      let v' := { v with buffer := v.buffer ++ [chunk] }
      if sp then
        ({ v' with speech_samples := v'.speech_samples + chunk.length
                   silence_samples := 0 }, {})
      else
        let v'' := { v' with silence_samples := v'.silence_samples + 1 }
        if v''.silence_threshold_chunks ≤ v''.silence_samples then
          if minSamples v''.cfg ≤ (v''.speech_samples : ℤ) then
            (v''.reset, { speech_ended := true, audio_buffer := v''.buffer })
          else
            (v''.reset, {})
        else (v'', {})
  | .TRAILING => (v, {})

/-- Run the detector over a list of chunks, collecting the per-call
results. -/
def VAD.run (v : VAD) (cs : List Chunk) : VAD × List VADResult :=
  match cs with
  | [] => (v, [])
  | c :: rest =>
      let p := v.process c
      let r := p.1.run rest
      (r.1, p.2 :: r.2)

/-- Number of calls in a result list that reported `speech_ended`. -/
def endedCount (rs : List VADResult) : ℕ :=
  (rs.filter (·.speech_ended)).length

end Gamux


namespace Gamux

/-! ## Buttons (`gamux/controller/buttons.py`) -/

/-- The `ButtonName` `StrEnum`. -/
inductive ButtonName where
  | A | B | X | Y | L | R | ZL | ZR
  | PLUS | MINUS | HOME | CAPTURE | L3 | R3
  | DPAD_UP | DPAD_DOWN | DPAD_LEFT | DPAD_RIGHT
deriving DecidableEq, Repr

/-- `str(button)` on the `StrEnum` — the member's string value. -/
def buttonStr : ButtonName → String
  | .A => "A" | .B => "B" | .X => "X" | .Y => "Y"
  | .L => "L" | .R => "R" | .ZL => "ZL" | .ZR => "ZR"
  | .PLUS => "plus" | .MINUS => "minus" | .HOME => "home" | .CAPTURE => "capture"
  | .L3 => "L3" | .R3 => "R3"
  | .DPAD_UP => "dpad_up" | .DPAD_DOWN => "dpad_down"
  | .DPAD_LEFT => "dpad_left" | .DPAD_RIGHT => "dpad_right"

/-- The `AnalogAxis` `StrEnum`. -/
inductive AnalogAxis where
  | LEFT_X | LEFT_Y | RIGHT_X | RIGHT_Y
deriving DecidableEq, Repr

/-- `ButtonEvent` dataclass from `controller/reader.py`. -/
structure ButtonEvent where
  button : ButtonName
  pressed : Bool
deriving DecidableEq, Repr

/-- `DPAD_X_MAP.get(value)`: hat-X value to synthesized button (any
value outside the table yields `None`, like `dict.get`). -/
def dpadXMap (value : ℤ) : Option ButtonName :=
  if value = -1 then some .DPAD_LEFT
  else if value = 1 then some .DPAD_RIGHT
  else none

/-- `DPAD_Y_MAP.get(value)`. -/
def dpadYMap (value : ℤ) : Option ButtonName :=
  if value = -1 then some .DPAD_UP
  else if value = 1 then some .DPAD_DOWN
  else none

/-! ## PTT orchestrator (`gamux/app.py`) -/

/-- The orchestrator state touched by `_on_button` / `_audio_loop`:
the PTT boolean, the (never-appended) `_ptt_audio` list, and the VAD. -/
structure OrchState where
  ptt_active : Bool
  ptt_audio : List Chunk
  vad : VAD
deriving DecidableEq, Repr

/-- Externally visible effects of one `App._on_button` call: the
`status.set` argument, if any, and the action string passed to
`dispatch_by_string`, if any. -/
structure ButtonEffects where
  status : Option String := none
  dispatched : Option String := none
deriving DecidableEq, Repr

/-- `App._on_button`.  The binding table (`config.bindings`) is the
`dict.get` function.  Mirrors the source: ZL press activates PTT,
clears `_ptt_audio`, resets the VAD and sets status `"listening..."`;
ZL release deactivates PTT and sets status `"ready"`; a non-ZL release
returns immediately; a non-ZL press builds the binding key (prefixed
with `"ZL_"` only while PTT is active), and dispatches only when the
key is bound. -/
def onButton (bindings : String → Option String) (s : OrchState)
    (ev : ButtonEvent) : OrchState × ButtonEffects :=
  if ev.button = .ZL then
    if ev.pressed then
      ({ ptt_active := true, ptt_audio := [], vad := s.vad.reset },
       { status := some "listening..." })
    else
      ({ s with ptt_active := false }, { status := some "ready" })
  else if !ev.pressed then
    (s, {})
  else
    let binding_key :=
      if s.ptt_active then "ZL_" ++ buttonStr ev.button else buttonStr ev.button
    match bindings binding_key with
    | none => (s, {})
    | some action_str => (s, { dispatched := some action_str })

/-- One iteration of `App._audio_loop` for a received chunk: while PTT
is inactive the chunk is skipped (`continue`); otherwise the chunk goes
through `vad.process`, and on `speech_ended` with a nonempty buffer the
concatenated audio is submitted to the recognizer (returned as
`some audio`). -/
def audioStep (s : OrchState) (c : Chunk) : OrchState × Option Chunk :=
  if !s.ptt_active then
    (s, none)
  else
    let p := s.vad.process c
    let submitted :=
      if p.2.speech_ended && !p.2.audio_buffer.isEmpty then
        some p.2.audio_buffer.flatten
      else none
    ({ s with vad := p.1 }, submitted)

/-- `_audio_loop` over a list of chunks, collecting every buffer
submitted for transcription. -/
def audioRun (s : OrchState) (cs : List Chunk) : OrchState × List Chunk :=
  match cs with
  | [] => (s, [])
  | c :: rest =>
      let p := audioStep s c
      let r := audioRun p.1 rest
      (r.1, p.2.toList ++ r.2)

end Gamux

namespace Gamux

/-! ## Controller reader (`gamux/controller/reader.py`) -/

/-- The fields of `ControllerConfig` used by the reader
(`gamux/config.py`): the configured device path (empty = auto-detect),
deadzone and per-direction neutral offsets. -/
structure ControllerConfig where
  device_path : String := ""
  stick_deadzone : ℚ := 1/10
  stick_neutral_x : ℤ := 0
  stick_neutral_y : ℤ := 0
deriving DecidableEq, Repr

/-- The neutral offset `_normalize` picks:
`neutral_y if axis in (LEFT_Y, RIGHT_Y) else neutral_x`. -/
def neutralOf (cfg : ControllerConfig) (axis : AnalogAxis) : ℤ :=
  match axis with
  | .LEFT_Y => cfg.stick_neutral_y
  | .RIGHT_Y => cfg.stick_neutral_y
  | _ => cfg.stick_neutral_x

/-- The deadzone tail of `_normalize`: collapse `|n| < deadzone` to
`0.0`, otherwise rescale with
`sign * (abs(normalized) - deadzone) / (1.0 - deadzone)` where
`sign = 1.0 if normalized > 0 else -1.0`. -/
def dzScale (deadzone n : ℚ) : ℚ :=
  if |n| < deadzone then 0
  else (if 0 < n then 1 else -1) * (|n| - deadzone) / (1 - deadzone)

/-- `ControllerReader._normalize`: center on the configured neutral,
divide by 32767, clamp to `[-1, 1]`, then apply the deadzone collapse
and rescale. -/
def normalize (cfg : ControllerConfig) (value : ℤ) (axis : AnalogAxis) : ℚ :=
  let centered : ℚ := (value : ℚ) - (neutralOf cfg axis : ℚ)
  let normalized : ℚ := centered / 32767
  dzScale cfg.stick_deadzone (max (-1) (min 1 normalized))

/-- One `_handle_abs` step for a hat (d-pad) axis: given the currently
synthesized direction slot and the direction table for this axis,
return the new slot and the emitted button events — a release of the
previously-held direction first (if any), then a press of the new
direction (if any). -/
def hatStep (dmap : ℤ → Option ButtonName) (held : Option ButtonName)
    (value : ℤ) : Option ButtonName × List ButtonEvent :=
  let newBtn := dmap value
  let releases := match held with
    | some b => [ButtonEvent.mk b false]
    | none => []
  let presses := match newBtn with
    | some b => [ButtonEvent.mk b true]
    | none => []
  (newBtn, releases ++ presses)

/-- Fold `hatStep` over a sequence of hat-axis values, concatenating
the emitted events. -/
def hatRun (dmap : ℤ → Option ButtonName) (held : Option ButtonName) :
    List ℤ → Option ButtonName × List ButtonEvent
  | [] => (held, [])
  | v :: rest =>
      let p := hatStep dmap held v
      let r := hatRun dmap p.1 rest
      (r.1, p.2 ++ r.2)

/-- Legality of a synthesized d-pad event stream relative to the
currently-held direction: a press is legal only when nothing is held
(and afterwards that button is held); a release is legal only for the
button currently held (and afterwards nothing is held).  In particular
a legal stream starting from `none` never contains two presses of the
same direction without an intervening release of it. -/
def hatLegal (held : Option ButtonName) : List ButtonEvent → Bool
  | [] => true
  | ⟨b, true⟩ :: rest => held == none && hatLegal (some b) rest
  | ⟨b, false⟩ :: rest => held == some b && hatLegal none rest

/-- Python-exception tags relevant to the start-up paths.  The
repository defines no exception classes of its own: the reader raises
the builtin `RuntimeError`, and `sounddevice.InputStream` raises the
library's `PortAudioError` when the capture device cannot be opened.
The spec's `DeviceNotFoundError` / `SourceUnavailableError` names are
included so that the spec's taxonomy can be stated and compared. -/
inductive PyError where
  | runtimeError (msg : String)
  | portAudioError
  | deviceNotFoundError
  | sourceUnavailableError
deriving DecidableEq, Repr

/-- The message of the reader's start-up failure. -/
def noControllerMsg : String :=
  "No controller device found. Check 'controller.device_path' in config."

/-- `ControllerReader.start` device resolution:
`device_path = self._config.device_path or self._find_device()` and
`if not device_path: raise RuntimeError(...)`.  The environment's
auto-detection outcome (`_find_device`) is the `found` argument. -/
def readerStart (cfg : ControllerConfig) (found : Option String) :
    Except PyError String :=
  let device_path : Option String :=
    if cfg.device_path = "" then found else some cfg.device_path
  match device_path with
  | none => .error (.runtimeError noControllerMsg)
  | some p =>
      if p = "" then .error (.runtimeError noControllerMsg) else .ok p

end Gamux

namespace Gamux

/-! ## Audio sources (`gamux/voice/source.py`)

Both variants share an `asyncio.Queue(maxsize=50)` of chunks, use the
empty chunk as termination sentinel, and drop the newest chunk when the
queue is full.  The queue is modelled as the list of its elements in
FIFO order. -/

/-- `asyncio.Queue(maxsize=50)`. -/
def queueMaxsize : ℕ := 50

/-- The sentinel: `np.zeros(0, dtype=np.float32)`. -/
def sentinel : Chunk := []

/-- `queue.put_nowait(c)`: appends when below capacity, raises
`asyncio.QueueFull` otherwise (the queue is left unchanged). -/
def putNowait (q : List Chunk) (c : Chunk) : Except Unit (List Chunk) :=
  if q.length < queueMaxsize then .ok (q ++ [c]) else .error ()

/-- The producers' enqueue wrapped in `suppress(asyncio.QueueFull)`:
on a full queue the chunk is dropped and the queue is unchanged. -/
def offerDrop (q : List Chunk) (c : Chunk) : List Chunk :=
  match putNowait q c with
  | .ok q' => q'
  | .error _ => q

/-- `LocalSource` state: whether the sounddevice stream is open
(`self._stream is not None`) and the queue contents. -/
structure LocalSrc where
  streamOpen : Bool
  queue : List Chunk
deriving DecidableEq, Repr

/-- `LocalSource.stop`: closes the stream when open (a second call
finds `self._stream is None` and skips that part) and always enqueues
one sentinel.  `queue.put` on the sentinel is an awaited put; the
consumer is draining, so it is modelled as an append. -/
def LocalSrc.stop (s : LocalSrc) : LocalSrc :=
  { streamOpen := false, queue := s.queue ++ [sentinel] }

/-- The hardware-capture callback handing one chunk to the queue.
`sounddevice` stops invoking the callback once the stream is stopped
and closed, so with a closed stream nothing is produced; otherwise the
chunk is offered with drop-newest-on-full semantics. -/
def LocalSrc.produce (s : LocalSrc) (c : Chunk) : LocalSrc :=
  if s.streamOpen then { s with queue := offerDrop s.queue c } else s

/-- `BridgeSource` state: whether the background receive task is
running and the queue contents. -/
structure BridgeSrc where
  taskRunning : Bool
  queue : List Chunk
deriving DecidableEq, Repr

/-- `BridgeSource.stop`: when the receive task is running it is
cancelled and awaited — its `finally` block enqueues a sentinel — and
then `stop` itself always enqueues one more sentinel. -/
def BridgeSrc.stop (s : BridgeSrc) : BridgeSrc :=
  let q := if s.taskRunning then s.queue ++ [sentinel] else s.queue
  { taskRunning := false, queue := q ++ [sentinel] }

/-- The bridge receive loop handing one decoded PCM frame to the queue
(`put_nowait` under `suppress(QueueFull)`); nothing is produced once
the task has been cancelled. -/
def BridgeSrc.produce (s : BridgeSrc) (c : Chunk) : BridgeSrc :=
  if s.taskRunning then { s with queue := offerDrop s.queue c } else s

/-- A pending `chunks()` iteration draining the queue contents: yields
chunks until the first empty (sentinel) chunk.  Returns the yielded
chunks, the number of sentinels observed, and whether the iteration
terminated (rather than suspending on an exhausted queue). -/
def consume : List Chunk → List Chunk × ℕ × Bool
  | [] => ([], 0, false)
  | c :: rest =>
      if c.isEmpty then ([], 1, true)
      else
        let r := consume rest
        (c :: r.1, r.2.1, r.2.2)

end Gamux

namespace Gamux

/-- `LocalSource.start`: constructs and starts the `sounddevice`
capture stream.  When the capture hardware is missing the library call
raises its own `PortAudioError`; the method defines no exception class
of its own and converts nothing. -/
def localStart (micAvailable : Bool) : Except PyError Unit :=
  if micAvailable then .ok () else .error .portAudioError

/-- `BridgeSource.start`: only spawns the background receive task
(`asyncio.create_task`) and returns — it has no failure path at all;
an unreachable endpoint surfaces later, inside `_receive_loop`, as a
logged error followed by the sentinel, never as an exception from
`start()`. -/
def bridgeStart (_endpointReachable : Bool) : Except PyError Unit :=
  .ok ()

/-- Modelled from the spec: the per-chunk duration in milliseconds the
spec derives from a 480-sample chunk at the configured sample rate
(`480 / sample_rate * 1000`; 30 ms at 16 kHz). -/
def chunkDurationMs (sample_rate : ℤ) : ℚ :=
  480 / (sample_rate : ℚ) * 1000

/-- Modelled from the spec: the spec's stated derivation
`silence_threshold_chunks = max(1, round(silence_duration_ms / chunk_duration_ms))`,
with `round` to the nearest integer. -/
def specSilenceThresholdChunks (cfg : VADConfig) : ℕ :=
  (max 1 (round ((cfg.silence_duration_ms : ℚ) / chunkDurationMs cfg.sample_rate))).toNat

end Gamux

namespace Gamux

/-! ## Theorems -/

/-- Helper: with PTT inactive the whole audio loop is a no-op. -/
lemma audioRun_inactive (s : OrchState) (cs : List Chunk)
    (h : s.ptt_active = false) : audioRun s cs = (s, []) := by
  induction cs with
  | nil => rfl
  | cons c rest ih =>
      simp [audioRun, audioStep, h, ih]

/-- C1: the orchestrator's audio loop invokes `vad.process` on a chunk
iff the PTT boolean is active when the chunk is observed; a chunk
arriving with PTT inactive is dropped without invoking the VAD and
without changing any orchestrator or VAD state (in particular a whole
stretch of chunks consumed with PTT off leaves the state untouched and
submits nothing). -/
theorem audio_gating_iff_ptt (s : OrchState) (c : Chunk) (cs : List Chunk) :
    (s.ptt_active = false →
       audioStep s c = (s, none) ∧ audioRun s cs = (s, [])) ∧
    (s.ptt_active = true →
       (audioStep s c).1.vad = (s.vad.process c).1 ∧
       (audioStep s c).1.ptt_active = true ∧
       (audioStep s c).1.ptt_audio = s.ptt_audio) := by
  constructor
  · intro h
    exact ⟨by simp [audioStep, h], audioRun_inactive s cs h⟩
  · intro h
    refine ⟨?_, ?_, ?_⟩ <;> simp [audioStep, h]

/-- Witness for `audio_gating_iff_ptt` at a concrete inactive state. -/
theorem audio_gating_iff_ptt_witness :
    let s : OrchState := { ptt_active := false, ptt_audio := [], vad := VAD.init {} }
    audioStep s [1] = (s, none) ∧ audioRun s [[1], [0]] = (s, []) := by
  intro s
  exact (audio_gating_iff_ptt s [1] [[1], [0]]).1 rfl

/-- Helper: the default-configured detector starts in `SILENCE` with a
silence threshold of 16 chunks (`int(500/1000*16000/480) = 16`). -/
lemma VAD_init_default_eq :
    VAD.init {} =
      { cfg := {}, state := .SILENCE, buffer := [], silence_samples := 0,
        speech_samples := 0, silence_threshold_chunks := 16 } := by
  unfold VAD.init pyInt
  norm_num
  decide

/-- Helper: `[1]` is a speech chunk for the default threshold `0.5`
(its rms is `1 ≥ 0.5`), so one `process` call moves the fresh default
detector to `SPEECH` with that chunk buffered. -/
lemma VAD_process_one_default :
    (VAD.init {}).process [1] =
      ({ cfg := {}, state := .SPEECH, buffer := [[1]], silence_samples := 0,
         speech_samples := 1, silence_threshold_chunks := 16 },
       { speech_started := true }) := by
  rw [VAD_init_default_eq]
  unfold VAD.process isSpeech rmsSqSum
  norm_num

/-- C2 counterexample: put the VAD mid-utterance (one speech chunk into
the default-configured detector), then process a ZL release.  The
orchestrator sets PTT inactive and emits "ready", but leaves the VAD
completely unchanged: it is still in `SPEECH` with a nonempty buffer,
so the claimed forced `reset()` on release does not happen. -/
theorem ptt_release_no_vad_reset_cex :
    (onButton (fun _ => none)
        { ptt_active := true, ptt_audio := [],
          vad := ((VAD.init {}).process [1]).1 }
        { button := .ZL, pressed := false }).1.vad =
      ((VAD.init {}).process [1]).1 ∧
    ¬ ((onButton (fun _ => none)
          { ptt_active := true, ptt_audio := [],
            vad := ((VAD.init {}).process [1]).1 }
          { button := .ZL, pressed := false }).1.vad.state = .SILENCE ∧
       (onButton (fun _ => none)
          { ptt_active := true, ptt_audio := [],
            vad := ((VAD.init {}).process [1]).1 }
          { button := .ZL, pressed := false }).1.vad.buffer = []) := by
  rw [VAD_process_one_default]
  refine ⟨rfl, ?_⟩
  intro hc
  exact absurd hc.2 (by simp [onButton])

/-- C2 (amended): processing a ZL release sets the PTT boolean
inactive and emits the "ready" status transition but performs no VAD
reset; the `reset()` is instead performed when ZL is next pressed
(together with clearing the accumulated PTT audio), and `reset` does
put the detector back in `SILENCE` with an empty buffer. -/
theorem ptt_release_and_press_effects (bindings : String → Option String)
    (s : OrchState) :
    onButton bindings s { button := .ZL, pressed := false } =
      ({ s with ptt_active := false }, { status := some "ready" }) ∧
    onButton bindings s { button := .ZL, pressed := true } =
      ({ ptt_active := true, ptt_audio := [], vad := s.vad.reset },
       { status := some "listening..." }) ∧
    s.vad.reset.state = .SILENCE ∧ s.vad.reset.buffer = [] := by
  refine ⟨rfl, rfl, rfl, rfl⟩

/-- Witness for `ptt_release_and_press_effects` at a concrete state. -/
theorem ptt_release_and_press_effects_witness :
    onButton (fun _ => none)
        { ptt_active := true, ptt_audio := [], vad := VAD.init {} }
        { button := .ZL, pressed := false } =
      ({ ptt_active := false, ptt_audio := [], vad := VAD.init {} },
       { status := some "ready" }) := by
  have h := (ptt_release_and_press_effects (fun _ => none)
    { ptt_active := true, ptt_audio := [], vad := VAD.init {} }).1
  simpa using h

/-- C4 counterexample: at the source's own defaults
(`silence_duration_ms = 500`, `sample_rate = 16000`, i.e. 30 ms
chunks), the code's `int(...)` truncation yields 16 chunks while the
claimed round-to-nearest would yield 17 (500/30 ≈ 16.67). -/
theorem silence_threshold_not_rounded_cex :
    (VAD.init {}).silence_threshold_chunks = 16 ∧
    specSilenceThresholdChunks {} = 17 ∧
    (VAD.init {}).silence_threshold_chunks ≠ specSilenceThresholdChunks {} := by
  have h1 : (VAD.init {}).silence_threshold_chunks = 16 := by
    rw [VAD_init_default_eq]
  have h2 : specSilenceThresholdChunks {} = 17 := by
    unfold specSilenceThresholdChunks chunkDurationMs
    rw [round_eq]
    norm_num
    decide
  exact ⟨h1, h2, by rw [h1, h2]; decide⟩

/-- C4 (amended): the derived `silence_threshold_chunks` equals
`max(1, int(silence_duration_ms / chunk_duration_ms))` — Python `int`
truncation toward zero, not rounding — where `chunk_duration_ms` is
inferred from a 480-sample chunk at the configured sample rate. -/
theorem silence_threshold_truncation (cfg : VADConfig)
    (h : 0 < cfg.sample_rate) :
    (VAD.init cfg).silence_threshold_chunks =
      (max 1 (pyInt ((cfg.silence_duration_ms : ℚ) /
        chunkDurationMs cfg.sample_rate))).toNat := by
  have hr : (cfg.sample_rate : ℚ) ≠ 0 := by
    exact_mod_cast h.ne'
  have harg : (cfg.silence_duration_ms : ℚ) / 1000 * (cfg.sample_rate : ℚ) / 480 =
      (cfg.silence_duration_ms : ℚ) / chunkDurationMs cfg.sample_rate := by
    unfold chunkDurationMs
    rw [show (480 : ℚ) / (cfg.sample_rate : ℚ) * 1000 =
          480 * 1000 / (cfg.sample_rate : ℚ) by ring]
    rw [div_div_eq_mul_div]
    ring
  simp only [VAD.init, harg]

/-- Witness for `silence_threshold_truncation` at the default config. -/
theorem silence_threshold_truncation_witness :
    (0 : ℤ) < (VADConfig.mk (1/2) 500 100 16000).sample_rate ∧
    (VAD.init (VADConfig.mk (1/2) 500 100 16000)).silence_threshold_chunks =
      (max 1 (pyInt (((VADConfig.mk (1/2) 500 100 16000).silence_duration_ms : ℚ) /
        chunkDurationMs (VADConfig.mk (1/2) 500 100 16000).sample_rate))).toNat :=
  ⟨by decide, silence_threshold_truncation (VADConfig.mk (1/2) 500 100 16000) (by decide)⟩

end Gamux

namespace Gamux

/-- C5: for a non-PTT button press the binding key is the PTT-button
name, an underscore and the button name while PTT is active, and the
bare button name otherwise ("ZL_A" / "A" for button A); an unbound key
dispatches nothing and leaves the state unchanged without error; and a
non-PTT release never dispatches.  In every case the orchestrator
state is returned unchanged. -/
theorem binding_key_dispatch (bindings : String → Option String)
    (s : OrchState) (b : ButtonName) (hb : b ≠ .ZL) :
    onButton bindings s { button := b, pressed := true } =
      (s, { dispatched := bindings
              (if s.ptt_active then "ZL_" ++ buttonStr b else buttonStr b) }) ∧
    (bindings (if s.ptt_active then "ZL_" ++ buttonStr b else buttonStr b) = none →
      onButton bindings s { button := b, pressed := true } = (s, {})) ∧
    onButton bindings s { button := b, pressed := false } = (s, {}) ∧
    (s.ptt_active = true → b = .A →
      (if s.ptt_active then "ZL_" ++ buttonStr b else buttonStr b) = "ZL_A") ∧
    (s.ptt_active = false → b = .A →
      (if s.ptt_active then "ZL_" ++ buttonStr b else buttonStr b) = "A") := by
  refine ⟨?_, ?_, ?_, ?_, ?_⟩
  · cases hk : bindings (if s.ptt_active then "ZL_" ++ buttonStr b else buttonStr b) with
    | none => simp [onButton, hb, hk]
    | some a => simp [onButton, hb, hk]
  · intro hk
    simp [onButton, hb, hk]
  · simp [onButton, hb]
  · intro hp hA
    subst hA
    simp [hp, buttonStr]
  · intro hp hA
    subst hA
    simp [hp, buttonStr]

/-- Witness for `binding_key_dispatch`: the configured table
`{"A": ..., "ZL_A": ...}` from the repository's own test fixture,
button A, PTT inactive. -/
theorem binding_key_dispatch_witness :
    onButton (fun k => if k = "A" then some "builtin:none" else none)
        { ptt_active := false, ptt_audio := [], vad := VAD.init {} }
        { button := .A, pressed := true } =
      ({ ptt_active := false, ptt_audio := [], vad := VAD.init {} },
       { dispatched := some "builtin:none" }) := by
  have h := (binding_key_dispatch
    (fun k => if k = "A" then some "builtin:none" else none)
    { ptt_active := false, ptt_audio := [], vad := VAD.init {} }
    .A (by decide)).1
  simpa [buttonStr] using h

/-- C8 counterexample: with no configured device path and failing
auto-detection the reader's `start()` raises the builtin
`RuntimeError`, not a `DeviceNotFoundError` (no such class exists in
the repository); and `BridgeSource.start()` with an unreachable
endpoint succeeds (it only spawns the receive task) instead of raising
`SourceUnavailableError`. -/
theorem start_error_classes_cex :
    readerStart {} none = .error (.runtimeError noControllerMsg) ∧
    readerStart {} none ≠ .error .deviceNotFoundError ∧
    bridgeStart false = .ok () ∧
    bridgeStart false ≠ .error .sourceUnavailableError := by
  refine ⟨rfl, by simp [readerStart, noControllerMsg], rfl, by simp [bridgeStart]⟩

/-- C8 (amended): the reader's `start()` raises the builtin
`RuntimeError` (with a fixed message) exactly when neither an explicit
device path nor auto-detection produces a usable path — and that is its
only failure; `LocalSource.start()` propagates the audio library's own
`PortAudioError` when the microphone cannot be opened; and
`BridgeSource.start()` never raises at all — an unreachable endpoint
surfaces later as the receive loop terminating with a sentinel. -/
theorem start_failure_modes (cfg : ControllerConfig) (found : Option String)
    (reachable mic : Bool) :
    (cfg.device_path = "" → found = none →
      readerStart cfg found = .error (.runtimeError noControllerMsg)) ∧
    (∀ e, readerStart cfg found = .error e → e = .runtimeError noControllerMsg) ∧
    bridgeStart reachable = .ok () ∧
    localStart mic = (if mic then .ok () else .error .portAudioError) := by
  refine ⟨?_, ?_, rfl, rfl⟩
  · intro h1 h2
    simp [readerStart, h1, h2]
  · intro e he
    unfold readerStart at he
    split at he
    · next hdp =>
        cases hf : found with
        | none => simp [hf] at he; exact he.symm
        | some p =>
            simp [hf] at he
            split at he
            · exact (Except.error.injEq _ _).mp he |>.symm
            · cases he
    · next hdp =>
        simp at he
        split at he
        · exact (Except.error.injEq _ _).mp he |>.symm
        · cases he

/-- Witness for `start_failure_modes` at the default (empty) device
path with failed detection. -/
theorem start_failure_modes_witness :
    readerStart {} none = .error (.runtimeError noControllerMsg) ∧
    bridgeStart false = .ok () := by
  have h := start_failure_modes {} none false true
  exact ⟨h.1 rfl rfl, h.2.2.1⟩

end Gamux

namespace Gamux

/-- C10: offering a chunk to a full bounded queue drops the newest
chunk: `put_nowait` raises `QueueFull` internally, the suppressed
producer path leaves the queue unchanged, and — since `put_nowait`
never waits — the producer is never blocked.  Below capacity the chunk
is appended; and both producers (`LocalSource`'s capture callback and
`BridgeSource`'s receive loop) go through exactly this suppressed
offer. -/
theorem queue_full_drops_newest (q : List Chunk) (c : Chunk) :
    (queueMaxsize ≤ q.length →
      putNowait q c = .error () ∧ offerDrop q c = q ∧
      LocalSrc.produce { streamOpen := true, queue := q } c =
        { streamOpen := true, queue := q } ∧
      BridgeSrc.produce { taskRunning := true, queue := q } c =
        { taskRunning := true, queue := q }) ∧
    (q.length < queueMaxsize → offerDrop q c = q ++ [c]) := by
  constructor
  · intro hfull
    have hp : putNowait q c = .error () := by
      simp [putNowait, Nat.not_lt.mpr hfull]
    have ho : offerDrop q c = q := by
      simp [offerDrop, hp]
    refine ⟨hp, ho, ?_, ?_⟩
    · simp [LocalSrc.produce, ho]
    · simp [BridgeSrc.produce, ho]
  · intro hlt
    simp [offerDrop, putNowait, hlt]

/-- Witness for `queue_full_drops_newest`: a queue of 50 one-sample
chunks is at capacity and the new chunk is dropped. -/
theorem queue_full_drops_newest_witness :
    offerDrop (List.replicate 50 [1]) [2] = List.replicate 50 [1] := by
  have h := (queue_full_drops_newest (List.replicate 50 [1]) [2]).1
  exact (h (by simp [queueMaxsize])).2.1

/-- Helper: a consumer draining `q ++ sentinel :: r`, where `q` holds
no sentinel, yields exactly `q`, observes exactly one sentinel, and
terminates. -/
lemma consume_append_sentinel (q r : List Chunk)
    (h : ∀ c ∈ q, c ≠ sentinel) :
    consume (q ++ sentinel :: r) = (q, 1, true) := by
  induction q with
  | nil => simp [consume, sentinel]
  | cons c rest ih =>
      have hc : c ≠ sentinel := h c (List.mem_cons_self c rest)
      have hrest : ∀ x ∈ rest, x ≠ sentinel := fun x hx => h x (List.mem_cons_of_mem c hx)
      have hne : ¬ c.isEmpty := by
        simpa [sentinel, List.isEmpty_iff] using hc
      simp [consume, hne, ih hrest]

/-- C9: for both audio-source variants, `stop()` is idempotent (a
second `stop()` leaves the resource state and the consumer-observable
stream unchanged), after `stop()` the producer can no longer enqueue
any chunk, and a pending `chunks()` iteration on the stopped source
yields the buffered audio chunks, observes exactly one terminal
sentinel, and terminates rather than blocking. -/
theorem source_stop_contract (sl : LocalSrc) (sb : BridgeSrc)
    (hl : ∀ c ∈ sl.queue, c ≠ sentinel)
    (hb : ∀ c ∈ sb.queue, c ≠ sentinel) :
    consume sl.stop.queue = (sl.queue, 1, true) ∧
    consume sb.stop.queue = (sb.queue, 1, true) ∧
    sl.stop.stop.streamOpen = sl.stop.streamOpen ∧
    consume sl.stop.stop.queue = consume sl.stop.queue ∧
    sb.stop.stop.taskRunning = sb.stop.taskRunning ∧
    consume sb.stop.stop.queue = consume sb.stop.queue ∧
    (∀ c, sl.stop.produce c = sl.stop) ∧
    (∀ c, sb.stop.produce c = sb.stop) := by
  have hcl : consume sl.stop.queue = (sl.queue, 1, true) := by
    simpa [LocalSrc.stop] using consume_append_sentinel sl.queue [] hl
  have hcll : consume sl.stop.stop.queue = (sl.queue, 1, true) := by
    have : sl.stop.stop.queue = sl.queue ++ sentinel :: [sentinel] := by
      simp [LocalSrc.stop]
    rw [this]
    exact consume_append_sentinel sl.queue [sentinel] hl
  have hcb : consume sb.stop.queue = (sb.queue, 1, true) := by
    cases htask : sb.taskRunning with
    | true =>
        have : sb.stop.queue = sb.queue ++ sentinel :: [sentinel] := by
          simp [BridgeSrc.stop, htask]
        rw [this]
        exact consume_append_sentinel sb.queue [sentinel] hb
    | false =>
        have : sb.stop.queue = sb.queue ++ sentinel :: [] := by
          simp [BridgeSrc.stop, htask]
        rw [this]
        exact consume_append_sentinel sb.queue [] hb
  have hcbb : consume sb.stop.stop.queue = (sb.queue, 1, true) := by
    cases htask : sb.taskRunning with
    | true =>
        have : sb.stop.stop.queue = sb.queue ++ sentinel :: [sentinel, sentinel] := by
          simp [BridgeSrc.stop, htask]
        rw [this]
        exact consume_append_sentinel sb.queue [sentinel, sentinel] hb
    | false =>
        have : sb.stop.stop.queue = sb.queue ++ sentinel :: [sentinel] := by
          simp [BridgeSrc.stop, htask]
        rw [this]
        exact consume_append_sentinel sb.queue [sentinel] hb
  refine ⟨hcl, hcb, rfl, by rw [hcll, hcl], rfl, by rw [hcbb, hcb], ?_, ?_⟩
  · intro c
    simp [LocalSrc.produce, LocalSrc.stop]
  · intro c
    simp [BridgeSrc.produce, BridgeSrc.stop]

/-- Witness for `source_stop_contract`: one buffered audio chunk in
each variant's queue. -/
theorem source_stop_contract_witness :
    consume (LocalSrc.stop { streamOpen := true, queue := [[1]] }).queue =
      ([[1]], 1, true) ∧
    consume (BridgeSrc.stop { taskRunning := true, queue := [[1]] }).queue =
      ([[1]], 1, true) := by
  have h := source_stop_contract
    { streamOpen := true, queue := [[1]] }
    { taskRunning := true, queue := [[1]] }
    (by simp [sentinel]) (by simp [sentinel])
  exact ⟨h.1, h.2.1⟩

end Gamux

namespace Gamux

/-- Helper: every event stream synthesized by the hat handler is legal
with respect to the held-direction slot it starts from. -/
lemma hatRun_legal (dmap : ℤ → Option ButtonName) :
    ∀ (vs : List ℤ) (held : Option ButtonName),
      hatLegal held (hatRun dmap held vs).2 = true := by
  intro vs
  induction vs with
  | nil => intro held; rfl
  | cons v rest ih =>
      intro held
      cases held with
      | none =>
          cases hm : dmap v with
          | none => simpa [hatRun, hatStep, hm, hatLegal] using ih none
          | some b => simpa [hatRun, hatStep, hm, hatLegal] using ih (some b)
      | some a =>
          cases hm : dmap v with
          | none => simpa [hatRun, hatStep, hm, hatLegal] using ih none
          | some b => simpa [hatRun, hatStep, hm, hatLegal] using ih (some b)

/-- Helper: in a legal stream that starts with direction b held, any
later press of b is preceded by a release of b. -/
lemma hatLegal_release_first (b : ButtonName) :
    ∀ (l l3 : List ButtonEvent),
      hatLegal (some b) (l ++ ButtonEvent.mk b true :: l3) = true →
      ∃ m1 m2, l = m1 ++ ButtonEvent.mk b false :: m2 := by
  intro l l3 hleg
  match l with
  | [] => simp [hatLegal] at hleg
  | ButtonEvent.mk c true :: l' => simp [hatLegal] at hleg
  | ButtonEvent.mk c false :: l' =>
      simp [hatLegal] at hleg
      exact ⟨[], l', by simp [hleg.1]⟩

/-- Helper: a legal stream never holds two presses of the same
direction without a release of that direction in between. -/
lemma hatLegal_no_double_press (b : ButtonName) :
    ∀ (l1 : List ButtonEvent) (h : Option ButtonName) (l2 l3 : List ButtonEvent),
      hatLegal h (l1 ++ ButtonEvent.mk b true :: l2 ++ ButtonEvent.mk b true :: l3) = true →
      ∃ m1 m2, l2 = m1 ++ ButtonEvent.mk b false :: m2 := by
  intro l1
  induction l1 with
  | nil =>
      intro h l2 l3 hleg
      simp only [List.nil_append, hatLegal, Bool.and_eq_true] at hleg
      exact hatLegal_release_first b l2 l3 hleg.2
  | cons e l1' ih =>
      intro h l2 l3 hleg
      match e with
      | ButtonEvent.mk c true =>
          simp only [List.cons_append, hatLegal, Bool.and_eq_true] at hleg
          exact ih (some c) l2 l3 hleg.2
      | ButtonEvent.mk c false =>
          simp only [List.cons_append, hatLegal, Bool.and_eq_true] at hleg
          exact ih none l2 l3 hleg.2

/-- C7: the synthesized d-pad stream starting from an idle slot never
contains two presses of the same direction without an intervening
release of it; a hat change while a direction is held emits the release
of the old direction immediately before the press of the new one; a
return to center (a value mapping to no direction, such as hat value 0)
emits exactly one release and no press when a direction was held, and
nothing when none was. -/
theorem hat_synthesis (dmap : ℤ → Option ButtonName) (vs : List ℤ)
    (b b' : ButtonName) :
    (∀ l1 l2 l3,
        (hatRun dmap none vs).2 =
          l1 ++ ButtonEvent.mk b true :: l2 ++ ButtonEvent.mk b true :: l3 →
        ∃ m1 m2, l2 = m1 ++ ButtonEvent.mk b false :: m2) ∧
    (∀ v, dmap v = some b' →
        hatStep dmap (some b) v =
          (some b', [ButtonEvent.mk b false, ButtonEvent.mk b' true])) ∧
    (∀ v, dmap v = none →
        hatStep dmap (some b) v = (none, [ButtonEvent.mk b false])) ∧
    (∀ v, dmap v = none → hatStep dmap none v = (none, [])) ∧
    dpadXMap 0 = none ∧ dpadYMap 0 = none := by
  refine ⟨?_, ?_, ?_, ?_, rfl, rfl⟩
  · intro l1 l2 l3 heq
    have hleg := hatRun_legal dmap vs none
    rw [heq] at hleg
    exact hatLegal_no_double_press b l1 none l2 l3 hleg
  · intro v hv
    simp [hatStep, hv]
  · intro v hv
    simp [hatStep, hv]
  · intro v hv
    simp [hatStep, hv]

/-- Witness for `hat_synthesis`: the real hat-X table, the value
sequence right, left, center; a change while right is held releases
right before pressing left, and the return to center releases left
only. -/
theorem hat_synthesis_witness :
    hatStep dpadXMap (some .DPAD_RIGHT) (-1) =
      (some .DPAD_LEFT,
       [ButtonEvent.mk .DPAD_RIGHT false, ButtonEvent.mk .DPAD_LEFT true]) ∧
    hatStep dpadXMap (some .DPAD_LEFT) 0 =
      (none, [ButtonEvent.mk .DPAD_LEFT false]) := by
  have h := hat_synthesis dpadXMap [1, -1, 0] .DPAD_RIGHT .DPAD_LEFT
  refine ⟨h.2.1 (-1) (by decide), ?_⟩
  have h' := hat_synthesis dpadXMap [1, -1, 0] .DPAD_LEFT .DPAD_RIGHT
  exact h'.2.2.1 0 (by decide)

end Gamux

namespace Gamux

/-- Helper: closed form of the deadzone tail for a nonnegative
deadzone — rescaled linear above the deadzone, mirrored below, zero
inside. -/
lemma dzScale_eq (dz n : ℚ) (h0 : 0 ≤ dz) :
    dzScale dz n =
      if dz ≤ n then (n - dz) / (1 - dz)
      else if n ≤ -dz then (n + dz) / (1 - dz)
      else 0 := by
  unfold dzScale
  rcases le_or_lt dz n with h | h
  · rw [if_pos h]
    have hn : 0 ≤ n := le_trans h0 h
    rw [abs_of_nonneg hn]
    rw [if_neg (not_lt.mpr h)]
    rcases lt_or_eq_of_le hn with hpos | hzero
    · rw [if_pos hpos]
      ring
    · have hdz : dz = 0 := le_antisymm (hzero ▸ h) h0
      rw [← hzero, hdz]
      norm_num
  · rw [if_neg (not_le.mpr h)]
    rcases le_or_lt n (-dz) with h2 | h2
    · rw [if_pos h2]
      have hn : n ≤ 0 := le_trans h2 (by linarith)
      have hnlt : ¬ |n| < dz := by
        rw [abs_of_nonpos hn]
        linarith
      rw [if_neg hnlt]
      rw [abs_of_nonpos hn]
      rw [if_neg (not_lt.mpr hn)]
      ring
    · rw [if_neg (not_le.mpr h2)]
      have : |n| < dz := abs_lt.mpr ⟨by linarith, h⟩
      rw [if_pos this]

/-- Helper: the deadzone tail is monotone for `0 ≤ dz < 1`. -/
lemma dzScale_mono (dz : ℚ) (h0 : 0 ≤ dz) (h1 : dz < 1)
    {a c : ℚ} (hac : a ≤ c) : dzScale dz a ≤ dzScale dz c := by
  rw [dzScale_eq dz a h0, dzScale_eq dz c h0]
  have hden : 0 < 1 - dz := by linarith
  have key : ∀ x y : ℚ, x ≤ y → x / (1 - dz) ≤ y / (1 - dz) := by
    intro x y h
    exact (div_le_div_right hden).mpr h
  have key0 : ∀ x : ℚ, x ≤ 0 → x / (1 - dz) ≤ 0 := by
    intro x h
    have := key x 0 h
    simpa using this
  have key0' : ∀ x : ℚ, 0 ≤ x → 0 ≤ x / (1 - dz) := by
    intro x h
    have := key 0 x h
    simpa using this
  split_ifs <;>
    first
      | linarith
      | (apply key; linarith)
      | (apply key0; linarith)
      | (apply key0'; linarith)

/-- Helper: `normalize` unfolded to the deadzone tail of the clamped,
centered, scaled value. -/
lemma normalize_def (cfg : ControllerConfig) (value : ℤ) (axis : AnalogAxis) :
    normalize cfg value axis =
      dzScale cfg.stick_deadzone
        (max (-1) (min 1 (((value : ℚ) - (neutralOf cfg axis : ℚ)) / 32767))) := rfl

/-- Helper: the clamp is the identity on `[-1, 1]`. -/
lemma clamp_of_abs_le {n : ℚ} (h : |n| ≤ 1) : max (-1) (min 1 n) = n := by
  rcases abs_le.mp h with ⟨hlo, hhi⟩
  rw [min_eq_right hhi, max_eq_right hlo]

/-- Helper: the clamp saturates at `1` above full deflection. -/
lemma clamp_hi {n : ℚ} (h : 1 ≤ n) : max (-1) (min 1 n) = 1 := by
  rw [min_eq_left h]
  norm_num

/-- Helper: the clamp saturates at `-1` below full deflection. -/
lemma clamp_lo {n : ℚ} (h : n ≤ -1) : max (-1) (min 1 n) = -1 := by
  rw [min_eq_right (le_trans h (by norm_num)), max_eq_left h]

end Gamux

namespace Gamux


/-- C6: for a fixed configured neutral and deadzone (with the
config-validated range `0 ≤ deadzone < 1`), `_normalize` is
monotonically non-decreasing in the raw value, maps the configured
neutral to `0.0`, returns exactly `0.0` whenever the deflection
`|v - neutral|` lies within the deadzone radius (in raw units,
`deadzone·32767`, so the deadzone edge maps to `0.0`), clamps to
exactly `±1.0` at and beyond full deflection (`±32767`), and on the
region between the deadzone edge and full deflection equals the
rescaling that sends the deadzone edge to `0.0` and full deflection to
`±1.0`. -/
theorem normalize_spec (cfg : ControllerConfig) (axis : AnalogAxis)
    (h0 : 0 ≤ cfg.stick_deadzone) (h1 : cfg.stick_deadzone < 1) :
    (∀ v w : ℤ, v ≤ w → normalize cfg v axis ≤ normalize cfg w axis) ∧
    normalize cfg (neutralOf cfg axis) axis = 0 ∧
    (∀ v : ℤ, |(v : ℚ) - (neutralOf cfg axis : ℚ)| ≤ cfg.stick_deadzone * 32767 →
        normalize cfg v axis = 0) ∧
    (∀ v : ℤ, 32767 ≤ (v : ℚ) - (neutralOf cfg axis : ℚ) →
        normalize cfg v axis = 1) ∧
    (∀ v : ℤ, (v : ℚ) - (neutralOf cfg axis : ℚ) ≤ -32767 →
        normalize cfg v axis = -1) ∧
    (∀ v : ℤ, cfg.stick_deadzone * 32767 ≤ |(v : ℚ) - (neutralOf cfg axis : ℚ)| →
        |(v : ℚ) - (neutralOf cfg axis : ℚ)| ≤ 32767 →
        normalize cfg v axis =
          (if 0 < (v : ℚ) - (neutralOf cfg axis : ℚ) then 1 else -1) *
            (|(v : ℚ) - (neutralOf cfg axis : ℚ)| / 32767 - cfg.stick_deadzone) /
            (1 - cfg.stick_deadzone)) := by
  set dz := cfg.stick_deadzone with hdz
  have h32 : (0 : ℚ) < 32767 := by norm_num
  have hinside : ∀ v : ℤ,
      |(v : ℚ) - (neutralOf cfg axis : ℚ)| ≤ dz * 32767 →
      normalize cfg v axis = 0 := by
    intro v hv
    rw [normalize_def]
    set x : ℚ := (v : ℚ) - (neutralOf cfg axis : ℚ) with hx
    have habs : |x / 32767| ≤ dz := by
      rw [abs_div, abs_of_pos h32, div_le_iff h32]
      linarith
    have habs1 : |x / 32767| ≤ 1 := le_trans habs (le_of_lt h1)
    rw [clamp_of_abs_le habs1]
    rw [dzScale_eq _ _ h0]
    set n : ℚ := x / 32767 with hn
    rcases abs_le.mp habs with ⟨hlo, hhi⟩
    split_ifs with hc1 hc2
    · have hne : n = dz := le_antisymm hhi hc1
      simp [hne]
    · have hne : n = -dz := le_antisymm hc2 hlo
      simp [hne]
    · rfl
  refine ⟨?_, ?_, hinside, ?_, ?_, ?_⟩
  · intro v w hvw
    rw [normalize_def, normalize_def]
    have hcast : ((v : ℚ)) ≤ (w : ℚ) := by exact_mod_cast hvw
    have hdiv : ((v : ℚ) - (neutralOf cfg axis : ℚ)) / 32767 ≤
        ((w : ℚ) - (neutralOf cfg axis : ℚ)) / 32767 := by
      apply (div_le_div_iff_of_pos_right h32).mpr
      linarith
    exact dzScale_mono dz h0 h1 (max_le_max le_rfl (min_le_min le_rfl hdiv))
  · apply hinside
    rw [sub_self, abs_zero]
    exact mul_nonneg h0 h32.le
  · intro v hv
    rw [normalize_def]
    have hn : 1 ≤ ((v : ℚ) - (neutralOf cfg axis : ℚ)) / 32767 := by
      rw [le_div_iff h32]
      linarith
    rw [clamp_hi hn, dzScale_eq _ _ h0, if_pos (le_of_lt h1)]
    exact div_self (ne_of_gt (by linarith))
  · intro v hv
    rw [normalize_def]
    have hn : ((v : ℚ) - (neutralOf cfg axis : ℚ)) / 32767 ≤ -1 := by
      rw [div_le_iff h32]
      linarith
    rw [clamp_lo hn, dzScale_eq _ _ h0]
    rw [if_neg (not_le.mpr (show (-1 : ℚ) < dz by linarith))]
    rw [if_pos (show (-1 : ℚ) ≤ -dz by linarith)]
    rw [div_eq_iff (ne_of_gt (show (0 : ℚ) < 1 - dz by linarith))]
    ring
  · intro v hband hfull
    rw [normalize_def]
    set x : ℚ := (v : ℚ) - (neutralOf cfg axis : ℚ) with hx
    have habs : |x / 32767| = |x| / 32767 := by
      rw [abs_div]
      norm_num
    have habs1 : |x / 32767| ≤ 1 := by
      rw [habs, div_le_one h32]
      exact hfull
    rw [clamp_of_abs_le habs1]
    unfold dzScale
    have hge : dz ≤ |x / 32767| := by
      rw [habs, le_div_iff h32]
      linarith
    rw [if_neg (not_lt.mpr hge)]
    have hsign : (0 < x / 32767) = (0 < x) := by
      apply propext
      constructor
      · intro h
        by_contra hx0
        push_neg at hx0
        have hq : x / 32767 ≤ 0 / 32767 := (div_le_div_iff_of_pos_right h32).mpr hx0
        rw [zero_div] at hq
        linarith
      · intro h
        exact div_pos h h32
    simp only [habs, hsign, ← hdz]

/-- Witness for `normalize_spec`: the default controller config
(deadzone 0.1, neutral 0), left-X axis — neutral maps to 0 and a
beyond-full deflection clamps to 1. -/
theorem normalize_spec_witness :
    normalize {} (neutralOf {} .LEFT_X) .LEFT_X = 0 ∧
    normalize {} 40000 .LEFT_X = 1 := by
  have h := normalize_spec {} .LEFT_X
    (show (0 : ℚ) ≤ 1/10 by norm_num) (show (1 : ℚ)/10 < 1 by norm_num)
  exact ⟨h.2.1, h.2.2.2.1 40000 (by norm_num [neutralOf])⟩

end Gamux

namespace Gamux

/-- Helper: `process` in `SILENCE` on a speech chunk starts an
utterance. -/
lemma process_speech_start (v : VAD) (c : Chunk)
    (hs : v.state = VADState.SILENCE) (hc : isSpeech v.cfg c = true) :
    v.process c =
      ({ v with
          state := .SPEECH
          buffer := [c]
          speech_samples := c.length
          silence_samples := 0 },
       { speech_started := true }) := by
  obtain ⟨cfg, st, buf, sil, sp, thr⟩ := v
  simp only at hs
  subst hs
  simp [VAD.process, hc]

/-- Helper: `process` in `SILENCE` on a silence chunk does nothing. -/
lemma process_silence_skip (v : VAD) (c : Chunk)
    (hs : v.state = VADState.SILENCE) (hc : isSpeech v.cfg c = false) :
    v.process c = (v, {}) := by
  obtain ⟨cfg, st, buf, sil, sp, thr⟩ := v
  simp only at hs
  subst hs
  simp [VAD.process, hc]

/-- Helper: `process` in `SPEECH` on a speech chunk appends and grows
the speech counter. -/
lemma process_speech_speech (v : VAD) (c : Chunk)
    (hs : v.state = VADState.SPEECH) (hc : isSpeech v.cfg c = true) :
    v.process c =
      ({ v with
          buffer := v.buffer ++ [c]
          speech_samples := v.speech_samples + c.length
          silence_samples := 0 }, {}) := by
  obtain ⟨cfg, st, buf, sil, sp, thr⟩ := v
  simp only at hs
  subst hs
  simp [VAD.process, hc]

/-- Helper: `process` in `SPEECH` on a silence chunk below the trailing
threshold appends and counts. -/
lemma process_speech_silence_low (v : VAD) (c : Chunk)
    (hs : v.state = VADState.SPEECH) (hc : isSpeech v.cfg c = false)
    (hlow : v.silence_samples + 1 < v.silence_threshold_chunks) :
    v.process c =
      ({ v with
          buffer := v.buffer ++ [c]
          silence_samples := v.silence_samples + 1 }, {}) := by
  obtain ⟨cfg, st, buf, sil, sp, thr⟩ := v
  simp only at hs hlow
  subst hs
  simp [VAD.process, hc, Nat.not_le.mpr hlow]

/-- Helper: `process` in `SPEECH` on the silence chunk that reaches the
trailing threshold resets, emitting the buffer iff enough speech
accumulated. -/
lemma process_speech_silence_trigger (v : VAD) (c : Chunk)
    (hs : v.state = VADState.SPEECH) (hc : isSpeech v.cfg c = false)
    (hhigh : v.silence_threshold_chunks ≤ v.silence_samples + 1) :
    v.process c =
      (v.reset,
       if minSamples v.cfg ≤ (v.speech_samples : ℤ)
       then { speech_ended := true, audio_buffer := v.buffer ++ [c] }
       else {}) := by
  obtain ⟨cfg, st, buf, sil, sp, thr⟩ := v
  simp only at hs hhigh
  subst hs
  by_cases hmin : minSamples cfg ≤ (sp : ℤ)
  · simp [VAD.process, VAD.reset, hc, hhigh, hmin]
  · simp [VAD.process, VAD.reset, hc, hhigh, hmin]

end Gamux

namespace Gamux

/-- Helper: splitting a detector run at a list append. -/
lemma VAD_run_append (xs ys : List Chunk) : ∀ v : VAD,
    v.run (xs ++ ys) =
      (((v.run xs).1.run ys).1, (v.run xs).2 ++ ((v.run xs).1.run ys).2) := by
  induction xs with
  | nil => intro v; simp [VAD.run]
  | cons c rest ih =>
      intro v
      simp [VAD.run, ih]

/-- Helper: a run of speech chunks in `SPEECH` state with no pending
trailing silence appends them all and counts their samples, emitting
nothing. -/
lemma run_speech_all (cs : List Chunk) : ∀ v : VAD,
    v.state = VADState.SPEECH → v.silence_samples = 0 →
    (∀ c ∈ cs, isSpeech v.cfg c = true) →
    v.run cs =
      ({ v with
          buffer := v.buffer ++ cs
          speech_samples := v.speech_samples + (cs.map List.length).sum },
       List.replicate cs.length {}) := by
  induction cs with
  | nil => intro v h1 h0 h3; simp [VAD.run]
  | cons c rest ih =>
      intro v h1 h0 h3
      have hc : isSpeech v.cfg c = true := h3 c (List.mem_cons_self c rest)
      rw [VAD.run]
      rw [process_speech_speech v c h1 hc]
      rw [ih { v with
                buffer := v.buffer ++ [c]
                speech_samples := v.speech_samples + c.length
                silence_samples := 0 } h1 rfl
            (fun c' hc' => h3 c' (List.mem_cons_of_mem c hc'))]
      simp [h0, add_assoc, List.replicate_succ]

/-- Helper: a run of silence chunks in `SPEECH` state too short to
reach the trailing threshold appends them and counts them, emitting
nothing. -/
lemma run_silence_low (cs : List Chunk) : ∀ v : VAD,
    v.state = VADState.SPEECH →
    (∀ c ∈ cs, isSpeech v.cfg c = false) →
    v.silence_samples + cs.length < v.silence_threshold_chunks →
    v.run cs =
      ({ v with
          buffer := v.buffer ++ cs
          silence_samples := v.silence_samples + cs.length },
       List.replicate cs.length {}) := by
  induction cs with
  | nil => intro v h1 h3 hlen; simp [VAD.run]
  | cons c rest ih =>
      intro v h1 h3 hlen
      have hc : isSpeech v.cfg c = false := h3 c (List.mem_cons_self c rest)
      have hlen' : v.silence_samples + (rest.length + 1) < v.silence_threshold_chunks := by
        simpa using hlen
      have hlow : v.silence_samples + 1 < v.silence_threshold_chunks := by
        omega
      rw [VAD.run]
      rw [process_speech_silence_low v c h1 hc hlow]
      rw [ih { v with
                buffer := v.buffer ++ [c]
                silence_samples := v.silence_samples + 1 } h1
            (fun c' hc' => h3 c' (List.mem_cons_of_mem c hc'))
            (show v.silence_samples + 1 + rest.length < v.silence_threshold_chunks
              by omega)]
      simp [List.replicate_succ]
      omega

/-- Helper: silence chunks in `SILENCE` state are ignored. -/
lemma run_silence_in_silence (cs : List Chunk) : ∀ v : VAD,
    v.state = VADState.SILENCE →
    (∀ c ∈ cs, isSpeech v.cfg c = false) →
    v.run cs = (v, List.replicate cs.length {}) := by
  induction cs with
  | nil => intro v h1 h3; simp [VAD.run]
  | cons c rest ih =>
      intro v h1 h3
      have hc : isSpeech v.cfg c = false := h3 c (List.mem_cons_self c rest)
      rw [VAD.run]
      rw [process_silence_skip v c h1 hc]
      rw [ih _ h1 (fun c' hc' => h3 c' (List.mem_cons_of_mem c hc'))]
      simp [List.replicate_succ]

/-- Helper: total sample count of a list of 480-sample chunks. -/
lemma sum_lengths_480 (l : List Chunk) (h : ∀ c ∈ l, c.length = 480) :
    (l.map List.length).sum = 480 * l.length := by
  induction l with
  | nil => simp
  | cons c rest ih =>
      have hc : c.length = 480 := h c (List.mem_cons_self c rest)
      have hr := ih (fun c' hc' => h c' (List.mem_cons_of_mem c hc'))
      simp [hc, hr]
      ring

end Gamux

namespace Gamux

/-- The spec's scenario configuration: threshold 0.1, 60 ms silence
window, 10 ms minimum speech, 16 kHz. -/
def cfgScenario : VADConfig :=
  { threshold := 1/10, silence_duration_ms := 60, min_speech_ms := 10,
    sample_rate := 16000 }

/-- A 30 ms full-scale speech chunk and a 30 ms silent chunk. -/
def speechChunk : Chunk := List.replicate 480 1

/-- See `speechChunk`. -/
def silenceChunk : Chunk := List.replicate 480 0

/-- Helper: scenario constants. -/
lemma cfgScenario_init :
    VAD.init cfgScenario = ⟨cfgScenario, .SILENCE, [], 0, 0, 2⟩ := by
  unfold VAD.init pyInt cfgScenario
  norm_num
  decide

/-- Helper: the 30 ms chunks have 480 samples. -/
lemma speechChunk_length : speechChunk.length = 480 := by
  unfold speechChunk
  rw [List.length_replicate]

/-- See `speechChunk_length`. -/
lemma silenceChunk_length : silenceChunk.length = 480 := by
  unfold silenceChunk
  rw [List.length_replicate]

/-- Helper: the full-scale chunk is speech at threshold 0.1. -/
lemma isSpeech_speechChunk : isSpeech cfgScenario speechChunk = true := by
  unfold isSpeech rmsSqSum speechChunk cfgScenario
  simp only [List.map_replicate, List.sum_replicate, List.length_replicate,
    smul_eq_mul]
  norm_num

/-- Helper: the zero chunk is silence at threshold 0.1. -/
lemma isSpeech_silenceChunk : isSpeech cfgScenario silenceChunk = false := by
  unfold isSpeech rmsSqSum silenceChunk cfgScenario
  simp only [List.map_replicate, List.sum_replicate, List.length_replicate,
    smul_eq_mul]
  norm_num

/-- Helper: 10 ms at 16 kHz is 160 samples. -/
lemma minSamples_scenario : minSamples cfgScenario = 160 := by
  unfold minSamples pyInt cfgScenario
  norm_num

/-- Helper: the spec's concrete scenario run —
process(speech), process(silence), process(silence) under the scenario
configuration ends the utterance on the third call with a 3-chunk
buffer. -/
lemma vad_scenario :
    ((VAD.init cfgScenario).run [speechChunk, silenceChunk, silenceChunk]).2.map
      (fun r => (r.speech_started, r.speech_ended, r.audio_buffer.length)) =
      [(true, false, 0), (false, false, 0), (false, true, 3)] := by
  have s1 : (⟨cfgScenario, .SILENCE, [], 0, 0, 2⟩ : VAD).process speechChunk =
      (⟨cfgScenario, .SPEECH, [speechChunk], 0, 480, 2⟩,
       { speech_started := true }) := by
    rw [process_speech_start ⟨cfgScenario, .SILENCE, [], 0, 0, 2⟩ speechChunk
      rfl isSpeech_speechChunk]
    rw [speechChunk_length]
  have s2 : (⟨cfgScenario, .SPEECH, [speechChunk], 0, 480, 2⟩ : VAD).process
      silenceChunk =
      (⟨cfgScenario, .SPEECH, [speechChunk, silenceChunk], 1, 480, 2⟩, {}) := by
    rw [process_speech_silence_low
      ⟨cfgScenario, .SPEECH, [speechChunk], 0, 480, 2⟩ silenceChunk
      rfl isSpeech_silenceChunk (by norm_num)]
    rfl
  have s3 : (⟨cfgScenario, .SPEECH, [speechChunk, silenceChunk], 1, 480, 2⟩ :
      VAD).process silenceChunk =
      (⟨cfgScenario, .SILENCE, [], 0, 0, 2⟩,
       { speech_ended := true,
         audio_buffer := [speechChunk, silenceChunk, silenceChunk] }) := by
    rw [process_speech_silence_trigger
      ⟨cfgScenario, .SPEECH, [speechChunk, silenceChunk], 1, 480, 2⟩
      silenceChunk rfl isSpeech_silenceChunk (by norm_num)]
    rw [minSamples_scenario]
    norm_num [VAD.reset]
  rw [cfgScenario_init]
  simp only [VAD.run, s1, s2, s3]
  simp

end Gamux

namespace Gamux

/-- Helper: the derived trailing-silence threshold is at least one. -/
lemma init_thr_pos (cfg : VADConfig) :
    1 ≤ (VAD.init cfg).silence_threshold_chunks := by
  unfold VAD.init
  have h1x : (1 : ℤ) ≤ max 1 (pyInt ((cfg.silence_duration_ms : ℚ) / 1000 *
      (cfg.sample_rate : ℚ) / 480)) := le_max_left _ _
  have := Int.toNat_le_toNat h1x
  simpa using this

/-- Helper: `endedCount` distributes over append. -/
lemma endedCount_append (a b : List VADResult) :
    endedCount (a ++ b) = endedCount a + endedCount b := by
  simp [endedCount, List.filter_append]

/-- Helper: default results carry no `speech_ended`. -/
lemma endedCount_replicate_none (n : ℕ) :
    endedCount (List.replicate n ({} : VADResult)) = 0 := by
  simp [endedCount, List.filter_replicate]

/-- Helper: `endedCount` step. -/
lemma endedCount_cons (r : VADResult) (l : List VADResult) :
    endedCount (r :: l) = (if r.speech_ended then 1 else 0) + endedCount l := by
  by_cases h : r.speech_ended
  · simp [endedCount, List.filter_cons, h]
    omega
  · simp [endedCount, List.filter_cons, h]

end Gamux


namespace Gamux

/-- Helper: `init` leaves the configuration in place. -/
lemma VAD_init_cfg (cfg : VADConfig) : (VAD.init cfg).cfg = cfg := rfl

/-- Helper: `init` starts in `SILENCE`. -/
lemma VAD_init_state (cfg : VADConfig) : (VAD.init cfg).state = .SILENCE := rfl

/-- C3: from a fresh (or reset) detector, N consecutive speech chunks
(480-sample chunks with rms at or above the threshold) followed by
M ≥ T silence chunks, where T is the derived trailing-silence
threshold: when the accumulated speech (480·N samples) meets the
configured minimum, exactly one call reports `speech_ended` — the call
at which the trailing-silence counter reaches T, at index N+T-1 — and
its buffer is the N speech chunks plus the T silence chunks consumed
before the threshold was reached (length N+T), after which the
detector is back in its freshly-initialized state; when the
accumulated speech is below the minimum, no call reports
`speech_ended` and the detector likewise resets.  The spec's concrete
scenario (threshold 0.1, 60 ms silence window, 10 ms minimum, 30 ms
chunks, speech + silence + silence) ends on the third call with a
3-chunk buffer. -/
theorem vad_roundtrip (cfg : VADConfig) (sl zl : List Chunk) (N M T : ℕ)
    (hslN : sl.length = N) (hzlM : zl.length = M) (hN : 1 ≤ N)
    (hsl : ∀ c ∈ sl, isSpeech cfg c = true)
    (hsl480 : ∀ c ∈ sl, c.length = 480)
    (hzl : ∀ c ∈ zl, isSpeech cfg c = false)
    (hT : T = (VAD.init cfg).silence_threshold_chunks)
    (hM : T ≤ M) :
    (minSamples cfg ≤ ((480 * N : ℕ) : ℤ) →
      ((VAD.init cfg).run (sl ++ zl)).2 =
        ({ speech_started := true } :: List.replicate (N - 1) ({} : VADResult)) ++
          (List.replicate (T - 1) ({} : VADResult) ++
            ({ speech_ended := true, audio_buffer := sl ++ zl.take T } : VADResult) ::
              List.replicate (M - T) ({} : VADResult)) ∧
      endedCount ((VAD.init cfg).run (sl ++ zl)).2 = 1 ∧
      (((VAD.init cfg).run (sl ++ zl)).2)[N + T - 1]? =
        some { speech_ended := true, audio_buffer := sl ++ zl.take T } ∧
      (sl ++ zl.take T).length = N + T ∧
      ((VAD.init cfg).run (sl ++ zl)).1 = VAD.init cfg) ∧
    (((480 * N : ℕ) : ℤ) < minSamples cfg →
      endedCount ((VAD.init cfg).run (sl ++ zl)).2 = 0 ∧
      ((VAD.init cfg).run (sl ++ zl)).1 = VAD.init cfg) ∧
    ((VAD.init cfgScenario).run [speechChunk, silenceChunk, silenceChunk]).2.map
        (fun r => (r.speech_started, r.speech_ended, r.audio_buffer.length)) =
      [(true, false, 0), (false, false, 0), (false, true, 3)] := by
  have hT1 : 1 ≤ T := hT ▸ init_thr_pos cfg
  obtain ⟨c0, sl', rfl⟩ : ∃ c0 sl', sl = c0 :: sl' := by
    cases sl with
    | nil =>
        exfalso
        simp at hslN
        omega
    | cons a b => exact ⟨a, b, rfl⟩
  have hsl'len : sl'.length = N - 1 := by
    simp at hslN
    omega
  have hc0 : isSpeech cfg c0 = true := hsl c0 (List.mem_cons_self c0 sl')
  have hc0len : c0.length = 480 := hsl480 c0 (List.mem_cons_self c0 sl')
  have hsum : (sl'.map List.length).sum = 480 * sl'.length :=
    sum_lengths_480 sl' (fun c hc => hsl480 c (List.mem_cons_of_mem c0 hc))
  have harith : 480 + 480 * (N - 1) = 480 * N := by omega
  have hA : (VAD.init cfg).run (c0 :: sl') =
      ((⟨cfg, .SPEECH, c0 :: sl', 0, 480 * N, T⟩ : VAD),
       { speech_started := true } :: List.replicate (N - 1) ({} : VADResult)) := by
    rw [VAD.run]
    rw [process_speech_start (VAD.init cfg) c0 rfl hc0]
    rw [run_speech_all sl'
      { VAD.init cfg with
          state := .SPEECH
          buffer := [c0]
          speech_samples := c0.length
          silence_samples := 0 }
      rfl rfl (fun c hc => hsl c (List.mem_cons_of_mem c0 hc))]
    simp [VAD_init_cfg, hc0len, hsum, hsl'len, harith, ← hT]
  have hidx : T - 1 < zl.length := by
    rw [hzlM]
    omega
  have hBlen : (zl.take (T - 1)).length = T - 1 := by
    rw [List.length_take, hzlM]
    omega
  have hB : ((⟨cfg, .SPEECH, c0 :: sl', 0, 480 * N, T⟩ : VAD)).run
      (zl.take (T - 1)) =
      ((⟨cfg, .SPEECH, (c0 :: sl') ++ zl.take (T - 1), T - 1, 480 * N, T⟩ : VAD),
       List.replicate (T - 1) ({} : VADResult)) := by
    rw [run_silence_low (zl.take (T - 1)) _ rfl
      (fun c hc => hzl c (List.take_subset _ _ hc))
      (show 0 + (zl.take (T - 1)).length < T by rw [hBlen]; omega)]
    simp [hBlen]
  have hztr : isSpeech cfg (zl.get ⟨T - 1, hidx⟩) = false :=
    hzl _ (List.get_mem zl (T - 1) hidx)
  have hzdec : zl = zl.take (T - 1) ++ zl.get ⟨T - 1, hidx⟩ :: zl.drop T := by
    have h1 : zl.drop (T - 1) = zl.get ⟨T - 1, hidx⟩ :: zl.drop T := by
      rw [List.drop_eq_getElem_cons hidx]
      rw [show T - 1 + 1 = T from by omega]
      simp [List.get_eq_getElem]
    calc zl = zl.take (T - 1) ++ zl.drop (T - 1) :=
          (List.take_append_drop _ _).symm
      _ = zl.take (T - 1) ++ (zl.get ⟨T - 1, hidx⟩ :: zl.drop T) := by rw [h1]
  have hres : ((⟨cfg, .SILENCE, [], 0, 0, T⟩ : VAD)) = VAD.init cfg := by
    rw [hT]
    simp [VAD.init]
  have hbuf : ((c0 :: sl') ++ zl.take (T - 1)) ++ [zl.get ⟨T - 1, hidx⟩] =
      (c0 :: sl') ++ zl.take T := by
    rw [List.append_assoc]
    have h2 : zl.take (T - 1) ++ [zl.get ⟨T - 1, hidx⟩] = zl.take T := by
      rw [List.get_eq_getElem]
      rw [List.take_concat_get' zl (T - 1) hidx]
      rw [show T - 1 + 1 = T from by omega]
    rw [h2]
  have hCtr : ((⟨cfg, .SPEECH, (c0 :: sl') ++ zl.take (T - 1), T - 1, 480 * N,
      T⟩ : VAD)).process (zl.get ⟨T - 1, hidx⟩) =
      (VAD.init cfg,
       if minSamples cfg ≤ ((480 * N : ℕ) : ℤ)
       then ({ speech_ended := true,
               audio_buffer := (c0 :: sl') ++ zl.take T } : VADResult)
       else {}) := by
    rw [process_speech_silence_trigger _ (zl.get ⟨T - 1, hidx⟩) rfl hztr
      (show T ≤ T - 1 + 1 from by omega)]
    dsimp only [VAD.reset]
    rw [hres, hbuf]
  have hC : (VAD.init cfg).run (zl.drop T) =
      (VAD.init cfg, List.replicate (M - T) ({} : VADResult)) := by
    rw [run_silence_in_silence (zl.drop T) (VAD.init cfg) rfl
      (fun c hc => hzl c (List.drop_subset _ _ hc))]
    rw [List.length_drop, hzlM]
  have hmid : ((⟨cfg, .SPEECH, c0 :: sl', 0, 480 * N, T⟩ : VAD)).run zl =
      (VAD.init cfg,
       List.replicate (T - 1) ({} : VADResult) ++
         (if minSamples cfg ≤ ((480 * N : ℕ) : ℤ)
          then ({ speech_ended := true,
                  audio_buffer := (c0 :: sl') ++ zl.take T } : VADResult)
          else {}) :: List.replicate (M - T) ({} : VADResult)) := by
    conv_lhs => rw [hzdec]
    rw [VAD_run_append]
    rw [hB]
    dsimp only
    rw [VAD.run]
    rw [hCtr]
    dsimp only
    rw [hC]
  have hrun : (VAD.init cfg).run ((c0 :: sl') ++ zl) =
      (VAD.init cfg,
       ({ speech_started := true } :: List.replicate (N - 1) ({} : VADResult)) ++
         (List.replicate (T - 1) ({} : VADResult) ++
           (if minSamples cfg ≤ ((480 * N : ℕ) : ℤ)
            then ({ speech_ended := true,
                    audio_buffer := (c0 :: sl') ++ zl.take T } : VADResult)
            else {}) :: List.replicate (M - T) ({} : VADResult))) := by
    rw [VAD_run_append, hA]
    dsimp only
    rw [hmid]
  have hlen_take : (zl.take T).length = T := by
    rw [List.length_take, hzlM]
    omega
  have hlenbuf : ((c0 :: sl') ++ zl.take T).length = N + T := by
    rw [List.length_append, hslN, hlen_take]
  refine ⟨?_, ?_, vad_scenario⟩
  · intro hlong
    refine ⟨?_, ?_, ?_, hlenbuf, ?_⟩
    · rw [hrun]
      dsimp only
      rw [if_pos hlong]
    · rw [hrun]
      dsimp only
      rw [if_pos hlong]
      simp [endedCount_append, endedCount_cons, endedCount_replicate_none]
    · rw [hrun]
      dsimp only
      rw [if_pos hlong]
      have hre : ({ speech_started := true } ::
            List.replicate (N - 1) ({} : VADResult)) ++
          (List.replicate (T - 1) ({} : VADResult) ++
            ({ speech_ended := true,
               audio_buffer := (c0 :: sl') ++ zl.take T } : VADResult) ::
              List.replicate (M - T) ({} : VADResult)) =
          (({ speech_started := true } ::
            (List.replicate (N - 1) ({} : VADResult) ++
             List.replicate (T - 1) ({} : VADResult)))) ++
          (({ speech_ended := true,
              audio_buffer := (c0 :: sl') ++ zl.take T } : VADResult) ::
            List.replicate (M - T) ({} : VADResult)) := by
        simp only [List.cons_append, List.append_assoc]
      rw [hre]
      rw [List.getElem?_append_right
        (by simp [List.length_append, List.length_replicate]; omega)]
      simp only [List.length_cons, List.length_append, List.length_replicate]
      rw [show N + T - 1 - (N - 1 + (T - 1) + 1) = 0 from by omega]
      simp
    · rw [hrun]
  · intro hshort
    constructor
    · rw [hrun]
      dsimp only
      rw [if_neg (not_le.mpr hshort)]
      simp [endedCount_append, endedCount_cons, endedCount_replicate_none]
    · rw [hrun]

end Gamux

namespace Gamux

/-- Witness for `vad_roundtrip`: the scenario configuration with one
speech chunk and two silence chunks (N=1, M=T=2) — one `speech_ended`,
on the third call, with the 3-chunk buffer. -/
theorem vad_roundtrip_witness :
    minSamples cfgScenario ≤ ((480 * 1 : ℕ) : ℤ) ∧
    endedCount ((VAD.init cfgScenario).run
      ([speechChunk] ++ [silenceChunk, silenceChunk])).2 = 1 ∧
    (((VAD.init cfgScenario).run
      ([speechChunk] ++ [silenceChunk, silenceChunk])).2)[1 + 2 - 1]? =
      some { speech_ended := true,
             audio_buffer := [speechChunk] ++ [silenceChunk, silenceChunk].take 2 } := by
  have hmin : minSamples cfgScenario ≤ ((480 * 1 : ℕ) : ℤ) := by
    rw [minSamples_scenario]
    norm_num
  have h := vad_roundtrip cfgScenario [speechChunk] [silenceChunk, silenceChunk]
    1 2 2 (by simp) (by simp) (by norm_num)
    (by intro c hc; simp at hc; subst hc; exact isSpeech_speechChunk)
    (by intro c hc; simp at hc; subst hc; exact speechChunk_length)
    (by intro c hc; simp at hc; subst hc; exact isSpeech_silenceChunk)
    (by rw [cfgScenario_init]) (by norm_num)
  exact ⟨hmin, (h.1 hmin).2.1, (h.1 hmin).2.2.1⟩

end Gamux
